import Mathlib

/-!
Verification development for the BusWatch stop page (src/src/StopPage.tsx and
the sibling Home page variants).  The TypeScript extraction pipeline
(`parseBusData`, `parseMinutesNum`, `parseStopsAway`, `parseStopName`) is
embedded as executable Lean functions over an explicit DOM tree; the refresh
controller (`fetchBusData`) is embedded as a state machine with explicit
events.  JavaScript numbers are modelled as rationals (ℚ); the concrete
arithmetic appearing in this file (short decimal literals, multiplication by
8, round/max) agrees with IEEE-754 double evaluation on all inputs used.
-/

namespace BusWatch

/-- JavaScript whitespace class (the `\s` regex class, `String.prototype.trim`
and `parseFloat` leading-whitespace skipping).  The ASCII members plus the
common Unicode members; exotic Unicode space code points never occur in the
documents considered here. -/
def isJsWhitespace (c : Char) : Bool :=
  c = ' ' || c = '\t' || c = '\n' || c = '\r' || c = '\x0b' || c = '\x0c' ||
  c = '\u00A0' || c = '\uFEFF' || c = '\u2028' || c = '\u2029'

/-- JavaScript line terminators: the characters NOT matched by the regex
metacharacter `.` (dotAll is off in every regex of the source). -/
def isLineTerm (c : Char) : Bool :=
  c = '\n' || c = '\r' || c = '\u2028' || c = '\u2029'

/-- `String.prototype.trim` on a character list. -/
def jsTrimL (s : List Char) : List Char :=
  ((s.dropWhile isJsWhitespace).reverse.dropWhile isJsWhitespace).reverse

/-- `String.prototype.trim`. -/
def jsTrim (s : String) : String :=
  ⟨jsTrimL s.data⟩

/-- `sub` is a literal prefix of `s` (case-sensitive). -/
def isPre : List Char → List Char → Bool
  | [], _ => true
  | _ :: _, [] => false
  | c :: cs, d :: ds => c = d && isPre cs ds

/-- `sub` is a literal prefix of `s` up to ASCII/Unicode simple case folding
(the `i` regex flag). -/
def isPreCI : List Char → List Char → Bool
  | [], _ => true
  | _ :: _, [] => false
  | c :: cs, d :: ds => c.toLower = d.toLower && isPreCI cs ds

/-- `String.prototype.includes` on character lists. -/
def hasSubL : List Char → List Char → Bool
  | [], sub => sub.isEmpty
  | c :: t, sub => isPre sub (c :: t) || hasSubL t sub

/-- `String.prototype.includes`. -/
def includes (s sub : String) : Bool :=
  hasSubL s.data sub.data

/-- `String.prototype.toLowerCase` (per-character simple lowering). -/
def toLowerStr (s : String) : String :=
  ⟨s.data.map Char.toLower⟩

/-- `String.prototype.replace(pat, '')` with a string pattern: removes the
first occurrence of `pat` only.  The source always passes the empty string
as replacement, so only removal is modelled. -/
def replaceFirst : List Char → List Char → List Char
  | [], _ => []
  | c :: t, pat =>
    if isPre pat (c :: t) then (c :: t).drop pat.length
    else c :: replaceFirst t pat

/-- Decimal digits to a natural number. -/
def digitsToNat (ds : List Char) : Nat :=
  ds.foldl (fun a c => 10 * a + (c.toNat - 48)) 0

/-- Exponent part of a JavaScript float literal (`e`/`E` already consumed):
optional sign then digits.  Returns 0 when no digits follow, mirroring
`parseFloat` stopping before an incomplete exponent. -/
def expPart (s : List Char) : Int :=
  match s with
  | '+' :: r => (digitsToNat (r.takeWhile Char.isDigit) : Int)
  | '-' :: r =>
    if (r.takeWhile Char.isDigit).isEmpty then 0
    else -(digitsToNat (r.takeWhile Char.isDigit) : Int)
  | r => (digitsToNat (r.takeWhile Char.isDigit) : Int)

/-- The syntactic shape of a successfully scanned float literal: sign,
integer digits, fraction digits, exponent value. -/
structure FloatSyntax where
  neg : Bool
  intDigits : List Char
  fracDigits : List Char
  exp : Int
deriving DecidableEq

/-- The scanning half of `parseFloat`: skip leading whitespace, optional
sign, digits, optional `.` and fraction digits (at least one digit overall),
optional exponent; `none` when no number parses (NaN). -/
def scanFloat (s : List Char) : Option FloatSyntax :=
  let s1 := s.dropWhile isJsWhitespace
  let neg : Bool := match s1 with | '-' :: _ => true | _ => false
  let s2 : List Char := match s1 with
    | '+' :: r => r
    | '-' :: r => r
    | r => r
  let intPart := s2.takeWhile Char.isDigit
  let s3 := s2.drop intPart.length
  let fracPart : List Char := match s3 with
    | '.' :: r => r.takeWhile Char.isDigit
    | _ => []
  let s4 : List Char := match s3 with
    | '.' :: r => r.drop fracPart.length
    | _ => s3
  if intPart.isEmpty && fracPart.isEmpty then none
  else
    some { neg, intDigits := intPart, fracDigits := fracPart,
           exp := match s4 with
                  | 'e' :: r => expPart r
                  | 'E' :: r => expPart r
                  | _ => 0 }

/-- The numeric value of a scanned float literal. -/
def floatVal (f : FloatSyntax) : ℚ :=
  let mant : ℚ :=
    (digitsToNat f.intDigits : ℚ) +
      (digitsToNat f.fracDigits : ℚ) / (10 : ℚ) ^ f.fracDigits.length
  let scaled : ℚ :=
    if 0 ≤ f.exp then mant * (10 : ℚ) ^ f.exp.toNat
    else mant / (10 : ℚ) ^ (-f.exp).toNat
  if f.neg then -scaled else scaled

/-- `parseFloat`: the scanned literal's numeric value, `none` when no number
parses (NaN).  `Infinity` literals are not modelled (no rational
counterpart; they never occur in the inputs considered). -/
def parseFloatQ (s : List Char) : Option ℚ :=
  (scanFloat s).map floatVal

/-- `parseFloat` on a `String`. -/
def parseFloat (s : String) : Option ℚ :=
  parseFloatQ s.data

/-- Drop the maximal `\s*` run (greedy; a shorter match can never help the
regexes of this file, since every continuation starts with a
non-whitespace literal character). -/
def dropWs (s : List Char) : List Char :=
  s.dropWhile isJsWhitespace

/-- Consume a case-sensitive literal. -/
def expectLit (lit s : List Char) : Option (List Char) :=
  if isPre lit s then some (s.drop lit.length) else none

/-- Consume a case-insensitive literal. -/
def expectLitCI (lit s : List Char) : Option (List Char) :=
  if isPreCI lit s then some (s.drop lit.length) else none

/-- Greedy optional single case-insensitive character (the `s?` of
`stops?` / `miles?`; skipping the optional letter can never rescue a failed
continuation here, so greedy without backtracking is exact). -/
def optCharCI (c : Char) (s : List Char) : List Char :=
  match s with
  | d :: r => if d.toLower = c.toLower then r else d :: r
  | [] => []

/-- One anchored attempt of `/([\d<]+)\s*stops?\s*away/i` at the head of `s`.
The `[\d<]+` is maximal-munch: shortening the run leaves a digit or `<` where
the literal `s`/`S` of `stop` is required, so backtracking cannot succeed. -/
def stopsAt (s : List Char) : Option (List Char) :=
  let cap := s.takeWhile (fun c => c.isDigit || c = '<')
  if cap.isEmpty then none
  else
    match expectLitCI "stop".data (dropWs (s.drop cap.length)) with
    | none => none
    | some r1 =>
      match expectLitCI "away".data (dropWs (optCharCI 's' r1)) with
      | none => none
      | some _ => some cap

/-- Leftmost search of `/([\d<]+)\s*stops?\s*away/i`: the capture group of the
first position where the pattern matches. -/
def stopsAwaySearch : List Char → Option (List Char)
  | [] => none
  | c :: rs =>
    match stopsAt (c :: rs) with
    | some cap => some cap
    | none => stopsAwaySearch rs

/-- One anchored attempt of `/([\d.]+)\s*miles?\s*away/i` at the head of `s`. -/
def milesAt (s : List Char) : Option (List Char) :=
  let cap := s.takeWhile (fun c => c.isDigit || c = '.')
  if cap.isEmpty then none
  else
    match expectLitCI "mile".data (dropWs (s.drop cap.length)) with
    | none => none
    | some r1 =>
      match expectLitCI "away".data (dropWs (optCharCI 's' r1)) with
      | none => none
      | some _ => some cap

/-- Leftmost search of `/([\d.]+)\s*miles?\s*away/i`. -/
def milesAwaySearch : List Char → Option (List Char)
  | [] => none
  | c :: rs =>
    match milesAt (c :: rs) with
    | some cap => some cap
    | none => milesAwaySearch rs

/-- The tail alternative `(?:\s*Vehicle|\s*$)` of the distance regex: either
whitespace then the case-sensitive literal `Vehicle`, or whitespace running to
the end of the string. -/
def distTailOk (s : List Char) : Bool :=
  (expectLit "Vehicle".data (dropWs s)).isSome || s.all isJsWhitespace

/-- The lazy group `(.+?)` of the distance regex, already holding `acc`
(nonempty): stop as soon as the tail alternative matches, otherwise grow by
one non-line-terminator character. -/
def lazyCap (acc rest : List Char) : Option (List Char) :=
  if distTailOk rest then some acc
  else
    match rest with
    | [] => none
    | c :: rs => if isLineTerm c then none else lazyCap (acc ++ [c]) rs

/-- One anchored attempt of `/minutes?\s*,\s*(.+?)(?:\s*Vehicle|\s*$)/` at the
head of `s` (note: the `minute` literal is case-sensitive - this regex has no
`i` flag in the source). -/
def distanceAt (s : List Char) : Option (List Char) :=
  match expectLit "minute".data s with
  | none => none
  | some r1 =>
    let r2 : List Char := match r1 with | 's' :: t => t | t => t
    match dropWs r2 with
    | ',' :: r3 =>
      (match dropWs r3 with
       | [] => none
       | c :: rs => if isLineTerm c then none else lazyCap [c] rs)
    | _ => none

/-- Leftmost search of `/minutes?\s*,\s*(.+?)(?:\s*Vehicle|\s*$)/`. -/
def distanceSearch : List Char → Option (List Char)
  | [] => none
  | c :: rs =>
    match distanceAt (c :: rs) with
    | some cap => some cap
    | none => distanceSearch rs

/-- The `\s+` then `(.+)` tail of the header regex, trying `\s+` lengths from
`j` downwards (greedy `\s+` prefers the longest run; `(.+)` then needs one
non-line-terminator character and captures greedily to the next line
terminator or the end). -/
def headerTailTry (r : List Char) : Nat → Option (List Char)
  | 0 => none
  | j + 1 =>
    match r.drop (j + 1) with
    | [] => headerTailTry r j
    | c :: rest =>
      if isLineTerm c then headerTailTry r j
      else some ((c :: rest).takeWhile (fun d => !isLineTerm d))

/-- `/^(\S+)\s+(.+)/` (the StopPage header regex): the leading `\S+` is
maximal-munch (a shorter token leaves a non-whitespace character where `\s+`
must start), then whitespace, then a nonempty remainder captured up to the
next line terminator.  Returns (route token, direction capture). -/
def headerMatch (s : List Char) : Option (List Char × List Char) :=
  let tok := s.takeWhile (fun c => !isJsWhitespace c)
  if tok.isEmpty then none
  else
    let r := s.drop tok.length
    match headerTailTry r (r.takeWhile isJsWhitespace).length with
    | none => none
    | some d => some (tok, d)

/-- `parseMinutesNum` from src/src/StopPage.tsx lines 28-33. -/
def parseMinutesNum (text : String) : ℚ :=
  if includes (toLowerStr text) "approaching" then 0
  else if includes text "<" then 1 / 2
  else
    match parseFloat text with
    | some num => num
    | none => 999

/-- `Math.round` on a rational: round half towards positive infinity. -/
def jsRound (q : ℚ) : Int :=
  Int.floor (q + 1 / 2)

/-- `parseStopsAway` from src/src/StopPage.tsx lines 35-49.  When the miles
capture fails to parse as a number (e.g. a capture of dots only),
`Math.round(NaN * 8)` and `Math.max(1, NaN)` are `NaN` and the template
renders `~NaN stops away`; that branch is transcribed literally. -/
def parseStopsAway (distanceText : String) : String :=
  match stopsAwaySearch distanceText.data with
  | some cap => String.mk cap ++ " stops away"
  | none =>
    if includes (toLowerStr distanceText) "approaching" then "Approaching"
    else
      match milesAwaySearch distanceText.data with
      | some cap =>
        (match parseFloatQ cap with
         | some miles =>
           let stops : Int := max 1 (jsRound (miles * 8))
           "~" ++ toString stops ++ " stops away"
         | none => "~NaN stops away")
      | none => distanceText

/-! ## DOM model

`parseBusData` receives an HTML string and immediately hands it to the
browser's `DOMParser` (a platform API, not repository code); every subsequent
step operates on the resulting DOM tree.  The tree is modelled explicitly: an
element node carries its tag, its class list and its children, a text node
carries its data.  The extractor is embedded from that boundary onwards. -/

inductive Node where
  | elem (tag : String) (classes : List String) (children : List Node)
  | text (data : String)

mutual

/-- `Node.textContent`: concatenation of all text-node data in the subtree,
in document order. -/
def textContent : Node → String
  | .text s => s
  | .elem _ _ cs => textContentList cs

/-- `textContent` over a child list. -/
def textContentList : List Node → String
  | [] => ""
  | n :: ns => textContent n ++ textContentList ns

end

mutual

/-- Elements matching a tag selector in the subtree rooted at the node, the
node itself included, in document (pre-)order. -/
def nodeTagMatches (t : String) : Node → List Node
  | .text _ => []
  | .elem tg cls cs =>
    (if tg = t then [Node.elem tg cls cs] else []) ++ listTagMatches t cs

/-- Tag-selector matches over a child list, in document order. -/
def listTagMatches (t : String) : List Node → List Node
  | [] => []
  | n :: ns => nodeTagMatches t n ++ listTagMatches t ns

end

/-- `el.querySelectorAll(tag)`: matching strict descendants of `el`, in
document order. -/
def descByTag (t : String) : Node → List Node
  | .text _ => []
  | .elem _ _ cs => listTagMatches t cs

mutual

/-- Elements carrying a class in the subtree rooted at the node, the node
itself included, in document order: `document.querySelectorAll('.cl')`. -/
def nodeClassMatches (cl : String) : Node → List Node
  | .text _ => []
  | .elem tg cls cs =>
    (if cl ∈ cls then [Node.elem tg cls cs] else []) ++ listClassMatches cl cs

/-- Class-selector matches over a child list. -/
def listClassMatches (cl : String) : List Node → List Node
  | [] => []
  | n :: ns => nodeClassMatches cl n ++ listClassMatches cl ns

end

mutual

/-- The `strong` elements (document order) of a subtree that have a `p`
ancestor, the ancestry flag threaded from above. -/
def strongsInPNode (insideP : Bool) : Node → List Node
  | .text _ => []
  | .elem tg cls cs =>
    (if insideP && tg = "strong" then [Node.elem tg cls cs] else []) ++
    strongsInPList (insideP || tg = "p") cs

/-- `strong`-under-`p` matches over a child list. -/
def strongsInPList (insideP : Bool) : List Node → List Node
  | [] => []
  | n :: ns => strongsInPNode insideP n ++ strongsInPList insideP ns

end

/-- `dir.querySelector('p strong')`: the first `strong` descendant of `dir`
(document order) having a `p` ancestor.  Ancestors are considered within the
queried element's subtree, the element itself included; CSS would also accept
a `p` ancestor above `dir`, a configuration that does not occur in the
documents considered here. -/
def pStrongQuery : Node → Option Node
  | .text _ => none
  | .elem tg _ cs => (strongsInPList (tg = "p") cs).head?

/-- The sibling walk of `parseStopName`: the first following sibling whose
trimmed `textContent` is nonempty. -/
def followingText : List Node → Option String
  | [] => none
  | n :: ns =>
    let t := jsTrim (textContent n)
    if t = "" then followingText ns else some t

mutual

/-- For every `h3` of the subtree (document order) whose `textContent`
contains `Bus Stop:`, the result of the sibling walk started at its next
sibling. -/
def h3CandsNode : Node → List (Option String)
  | .text _ => []
  | .elem _ _ cs => h3CandsList cs

/-- `h3` candidates over a child list (each matching `h3` contributes before
its own nested content, then the walk continues with the remaining
siblings). -/
def h3CandsList : List Node → List (Option String)
  | [] => []
  | n :: ns =>
    (match n with
     | .elem tg _ cs =>
       if tg = "h3" && includes (textContentList cs) "Bus Stop:"
       then [followingText ns] else []
     | .text _ => []) ++ h3CandsNode n ++ h3CandsList ns

end

/-- `parseStopName` from src/src/StopPage.tsx lines 51-66: scan the `h3`
elements in document order; for each containing `Bus Stop:`, walk its
following siblings for a nonempty trimmed text; the first `h3` whose walk
succeeds supplies the stop name, otherwise the empty string. -/
def parseStopName (doc : Node) : String :=
  match ((h3CandsNode doc).filterMap id).head? with
  | some s => s
  | none => ""

/-! ## Extraction records (the data model of the spec) -/

structure BusArrival where
  minutes : String
  minutesNum : ℚ
  stopsAway : String
  vehicleId : String
deriving DecidableEq

structure BusRoute where
  route : String
  direction : String
  arrivals : List BusArrival
deriving DecidableEq

structure StopSnapshot where
  stopName : String
  routes : List BusRoute
deriving DecidableEq

/-- The per-ordered-list body of `parseBusData` (src/src/StopPage.tsx lines
90-110): read only the first `li`; no `li` means no arrival is pushed.
Missing sub-elements degrade to empty strings; the raw distance text is the
trimmed capture of the distance regex over the item's full `textContent`. -/
def parseOl (ol : Node) : Option BusArrival :=
  match (descByTag "li" ol).head? with
  | none => none
  | some li =>
    let minutes : String :=
      match (descByTag "strong" li).head? with
      | some el => jsTrim (textContent el)
      | none => ""
    let vehicleId : String :=
      match (descByTag "small" li).head? with
      | some el => ⟨replaceFirst (jsTrim (textContent el)).data "Vehicle ".data⟩
      | none => ""
    let rawDistance : String :=
      match distanceSearch (textContent li).data with
      | some cap => jsTrim ⟨cap⟩
      | none => ""
    some { minutes, minutesNum := parseMinutesNum minutes,
           stopsAway := parseStopsAway rawDistance, vehicleId }

/-- The per-block body of `parseBusData` (src/src/StopPage.tsx lines 76-113):
require a `p strong` header and a header text matching `/^(\S+)\s+(.+)/`,
otherwise the block contributes nothing; the arrivals come from the block's
ordered lists via `parseOl`. -/
def parseDirection (dir : Node) : Option BusRoute :=
  match pStrongQuery dir with
  | none => none
  | some headerEl =>
    match headerMatch (jsTrim (textContent headerEl)).data with
    | none => none
    | some (tok, d) =>
      some { route := ⟨tok⟩, direction := ⟨d⟩,
             arrivals := (descByTag "ol" dir).filterMap parseOl }

/-- `parseBusData` from src/src/StopPage.tsx lines 68-116, from the
`DOMParser` boundary onwards. -/
def parseBusData (doc : Node) : StopSnapshot :=
  { stopName := parseStopName doc
    routes := (nodeClassMatches "directionAtStop" doc).filterMap parseDirection }

/-- Element with no classes (sample-document shorthand). -/
def el (tag : String) (children : List Node) : Node :=
  .elem tag [] children

/-- Text node (sample-document shorthand). -/
def txt (s : String) : Node :=
  .text s

/-! ## Refresh controller

`fetchBusData` (src/src/StopPage.tsx lines 163-204) runs on the browser's
single-threaded event loop: the synchronous prologue (in-flight check, gap
check, state updates up to starting the fetch) is atomic, and a fetch
settlement together with its `then`/`finally` continuations (snapshot or
error update, `isRefreshing`/`loading` reset, in-flight handle clear) runs as
an unbroken microtask chain before any other event handler.  The controller
is therefore embedded as a state record with two atomic events: a refresh
request at a timestamp, and the settlement of the outstanding fetch.
`outstanding` counts the pending fetches (the in-flight handle is non-null
exactly when it is nonzero).  The minimum request gap `MIN_REQUEST_GAP_MS`
is imported from `refreshPolicy.ts`, a file absent from the sources; per the
spec it is a fixed configured seconds-scale duration, so it is kept as an
explicit parameter `gap` throughout.  The guard `if (!stopCode) return` only
concerns a missing router parameter and is outside the refresh policy; the
states modelled are those with a stop code present. -/

structure ControllerState where
  stopName : String
  routes : List BusRoute
  loading : Bool
  isRefreshing : Bool
  nextAllowedRefreshAt : Int
  error : Option String
  lastRequestAt : Int
  outstanding : Nat
deriving DecidableEq

/-- The initial hook state of `StopPage`: empty snapshot, `loading` true,
both refs zero/null. -/
def initState : ControllerState :=
  { stopName := "", routes := [], loading := true, isRefreshing := false,
    nextAllowedRefreshAt := 0, error := none, lastRequestAt := 0,
    outstanding := 0 }

/-- What a `fetchBusData` call did: returned the existing in-flight promise
(the caller shares its result), returned without any effect because the
minimum gap has not elapsed, or started a new underlying fetch. -/
inductive RefreshAction where
  | joinedInFlight
  | droppedCooldown
  | startedFetch
deriving DecidableEq

/-- The synchronous prologue of `fetchBusData`: lines 166-197 of
src/src/StopPage.tsx. -/
def requestRefresh (gap now : Int) (s : ControllerState) : ControllerState × RefreshAction :=
  if s.outstanding ≠ 0 then (s, .joinedInFlight)
  else if now - s.lastRequestAt < gap then (s, .droppedCooldown)
  else
    ({ s with lastRequestAt := now, nextAllowedRefreshAt := now + gap,
              isRefreshing := true, outstanding := s.outstanding + 1 },
     .startedFetch)

/-- The error taxonomy of the transport boundary: a non-success HTTP status
(`throw new Error('HTTP ' + res.status)`) or a network failure carrying the
exception's message. -/
inductive TransportError where
  | httpError (status : Nat)
  | networkFailure (msg : String)
deriving DecidableEq

/-- The message surfaced for a transport error: `HTTP <status>` for a
non-success response, the exception message otherwise. -/
def errorMessage : TransportError → String
  | .httpError status => "HTTP " ++ toString status
  | .networkFailure msg => msg

/-- How the outstanding fetch settles: a successfully fetched document, or a
transport error. -/
inductive FetchOutcome where
  | success (doc : Node)
  | failure (err : TransportError)

/-- Settlement of the outstanding fetch with its continuations: the
`try`/`catch`/`finally` of lines 179-195 plus the in-flight clear of lines
199-203.  On success the parsed snapshot replaces the previous one and the
error is cleared; on failure only the error state changes; both paths reset
`loading` and `isRefreshing` and release the in-flight handle. -/
def resolveFetch (s : ControllerState) : FetchOutcome → ControllerState
  | .success doc =>
    let parsed := parseBusData doc
    { s with stopName := parsed.stopName, routes := parsed.routes,
             error := none, loading := false, isRefreshing := false,
             outstanding := s.outstanding - 1 }
  | .failure err =>
    { s with error := some (errorMessage err), loading := false,
             isRefreshing := false, outstanding := s.outstanding - 1 }

/-- An event on the controller's logical thread. -/
inductive Event where
  | request (now : Int)
  | settle (o : FetchOutcome)

/-- One event step. -/
def step (gap : Int) (s : ControllerState) : Event → ControllerState
  | .request now => (requestRefresh gap now s).1
  | .settle o => resolveFetch s o

/-- Run a list of events. -/
def run (gap : Int) (s : ControllerState) : List Event → ControllerState
  | [] => s
  | e :: es => run gap (step gap s e) es

/-- Number of underlying fetches started while processing a list of
events. -/
def fetchesStarted (gap : Int) (s : ControllerState) : List Event → Nat
  | [] => 0
  | e :: es =>
    (match e with
     | .request now => if (requestRefresh gap now s).2 = .startedFetch then 1 else 0
     | .settle _ => 0) + fetchesStarted gap (step gap s e) es

/-! ## Sample documents -/

/-- The sample list item: emphasized text `3 min`, small text
`Vehicle 1234`, full text `3 minutes, 2 stops away, Vehicle 1234`. -/
def sampleLi : Node :=
  el "li" [
    el "strong" [txt "3 min"],
    txt "utes, 2 stops away, ",
    el "small" [txt "Vehicle 1234"]]

/-- The sample ordered list holding `sampleLi`. -/
def sampleOl : Node :=
  el "ol" [sampleLi]

/-- The sample direction-at-stop block: header `M101 Southbound`, one
ordered list. -/
def sampleDir : Node :=
  .elem "div" ["directionAtStop"] [
    el "p" [el "strong" [txt "M101 Southbound"]],
    sampleOl]

/-- The end-to-end sample document of the spec: one direction-at-stop block
with header `M101 Southbound` and one ordered list whose first item has
emphasized text `3 min`, small text `Vehicle 1234` and full text
`3 minutes, 2 stops away, Vehicle 1234`. -/
def sampleDoc : Node :=
  el "html" [el "body" [sampleDir]]

/-- A direction-at-stop block whose trimmed header text is exactly `M101`:
a route token with no whitespace-separated second token. -/
def singleTokenDir : Node :=
  .elem "div" ["directionAtStop"] [
    el "p" [el "strong" [txt "M101"]],
    el "ol" [el "li" [el "strong" [txt "3 min"]]]]

/-- A document holding exactly the `singleTokenDir` block. -/
def singleTokenDoc : Node :=
  el "html" [el "body" [singleTokenDir]]

/-- A direction-at-stop block with a valid header and zero ordered lists. -/
def noOlDir : Node :=
  .elem "div" ["directionAtStop"] [el "p" [el "strong" [txt "M101 South"]]]

/-- A document holding exactly the `noOlDir` block. -/
def noOlDoc : Node :=
  el "html" [el "body" [noOlDir]]

/-- An ordered list whose first item has no sub-elements and no text. -/
def bareLiOl : Node :=
  el "ol" [el "li" []]

/-- An ordered list whose first item carries the capitalized full text
`3 Minutes, 2 stops away` (no lowercase `minute` occurrence). -/
def capitalMinutesOl : Node :=
  el "ol" [el "li" [el "strong" [txt "3 Min"], txt "utes, 2 stops away"]]

/-! ## Helper lemmas -/

/-- A list all of whose elements satisfy `p` is its own `takeWhile p`. -/
theorem takeWhile_all_eq {α : Type} {p : α → Bool} :
    ∀ l : List α, l.all p → l.takeWhile p = l := by
  intro l hl
  induction l with
  | nil => rfl
  | cons c t ih =>
    rw [List.all_cons, Bool.and_eq_true] at hl
    rw [List.takeWhile_cons, hl.1]
    exact congrArg (c :: ·) (ih hl.2)

/-- A string with no occurrence of the case-sensitive literal `minute` gives
the distance regex nothing to anchor on. -/
theorem distanceSearch_none_of_no_minute :
    ∀ s : List Char, hasSubL s "minute".data = false → distanceSearch s = none := by
  intro s h
  induction s with
  | nil => rfl
  | cons c t ih =>
    rw [hasSubL, Bool.or_eq_false_iff] at h
    have hat : distanceAt (c :: t) = none := by
      rw [distanceAt, expectLit, h.1]
      simp
    rw [distanceSearch, hat]
    exact ih h.2

/-- `parseFloat "3 min"` parses the leading 3. -/
theorem parseFloat_eval_3 : parseFloat "3 min" = some 3 := by
  have h : scanFloat "3 min".data = some ⟨false, ['3'], [], 0⟩ := by decide
  have d1 : digitsToNat ['3'] = 3 := by decide
  have d0 : digitsToNat ([] : List Char) = 0 := by decide
  rw [parseFloat, parseFloatQ, h]
  norm_num [floatVal, d1, d0]

/-- `parseFloat "7 min"` parses the leading 7. -/
theorem parseFloat_eval_7 : parseFloat "7 min" = some 7 := by
  have h : scanFloat "7 min".data = some ⟨false, ['7'], [], 0⟩ := by decide
  have d1 : digitsToNat ['7'] = 7 := by decide
  have d0 : digitsToNat ([] : List Char) = 0 := by decide
  rw [parseFloat, parseFloatQ, h]
  norm_num [floatVal, d1, d0]

/-- `parseFloat` on the miles capture `2.1`. -/
theorem parseFloatQ_eval_21_10 : parseFloatQ ['2', '.', '1'] = some (21 / 10) := by
  have h : scanFloat ['2', '.', '1'] = some ⟨false, ['2'], ['1'], 0⟩ := by decide
  have d2 : digitsToNat ['2'] = 2 := by decide
  have d1 : digitsToNat ['1'] = 1 := by decide
  rw [parseFloatQ, h]
  norm_num [floatVal, d2, d1]

/-- `parseFloat` on the miles capture `0.05`. -/
theorem parseFloatQ_eval_1_20 : parseFloatQ ['0', '.', '0', '5'] = some (1 / 20) := by
  have h : scanFloat ['0', '.', '0', '5'] = some ⟨false, ['0'], ['0', '5'], 0⟩ := by decide
  have di : digitsToNat ['0'] = 0 := by decide
  have df : digitsToNat ['0', '5'] = 5 := by decide
  rw [parseFloatQ, h]
  norm_num [floatVal, di, df]

/-- `parseMinutesNum "3 min"` takes the numeric branch. -/
theorem parseMinutesNum_eval_3 : parseMinutesNum "3 min" = 3 := by
  have h1 : includes (toLowerStr "3 min") "approaching" = false := by decide
  have h2 : includes "3 min" "<" = false := by decide
  simp [parseMinutesNum, h1, h2, parseFloat_eval_3]

/-- The miles branch of `parseStopsAway`, with the numeric conversion left
symbolic. -/
theorem parseStopsAway_milesBranch (s : String) (cap : List Char) (q : ℚ)
    (h1 : stopsAwaySearch s.data = none)
    (h2 : includes (toLowerStr s) "approaching" = false)
    (h3 : milesAwaySearch s.data = some cap)
    (h4 : parseFloatQ cap = some q) :
    parseStopsAway s = "~" ++ toString (max 1 (jsRound (q * 8))) ++ " stops away" := by
  simp [parseStopsAway, h1, h2, h3, h4]

/-! ## Claim theorems -/

/-- C6: the minutes-to-rank conversion maps any text containing the
case-insensitive substring `approaching` to 0; otherwise any text containing
`<` to 0.5; otherwise the leading numeric value parsed from the text, with
sentinel 999 when no number parses; in particular
`minutesValue("Approaching") = 0`, `minutesValue("<1 min") = 0.5`,
`minutesValue("garbage") = 999` and `minutesValue("7 min") = 7`. -/
theorem parseMinutesNum_rank_rules :
    (∀ s : String, includes (toLowerStr s) "approaching" = true →
      parseMinutesNum s = 0) ∧
    (∀ s : String, includes (toLowerStr s) "approaching" = false →
      includes s "<" = true → parseMinutesNum s = 1 / 2) ∧
    (∀ s : String, includes (toLowerStr s) "approaching" = false →
      includes s "<" = false →
      parseMinutesNum s = (match parseFloat s with | some q => q | none => 999)) ∧
    parseMinutesNum "Approaching" = 0 ∧
    parseMinutesNum "<1 min" = 1 / 2 ∧
    parseMinutesNum "garbage" = 999 ∧
    parseMinutesNum "7 min" = 7 := by
  refine ⟨?_, ?_, ?_, ?_, ?_, ?_, ?_⟩
  · intro s h
    simp [parseMinutesNum, h]
  · intro s h1 h2
    simp [parseMinutesNum, h1, h2]
  · intro s h1 h2
    simp [parseMinutesNum, h1, h2]
  · simp [parseMinutesNum, show includes (toLowerStr "Approaching") "approaching" = true
      from by decide]
  · have h1 : includes (toLowerStr "<1 min") "approaching" = false := by decide
    have h2 : includes "<1 min" "<" = true := by decide
    simp [parseMinutesNum, h1, h2]
  · have h1 : includes (toLowerStr "garbage") "approaching" = false := by decide
    have h2 : includes "garbage" "<" = false := by decide
    have h3 : parseFloat "garbage" = none := by decide
    simp [parseMinutesNum, h1, h2, h3]
  · have h1 : includes (toLowerStr "7 min") "approaching" = false := by decide
    have h2 : includes "7 min" "<" = false := by decide
    simp [parseMinutesNum, h1, h2, parseFloat_eval_7]

/-- C6 witness: the three conditional rules applied at concrete inputs. -/
theorem parseMinutesNum_rank_rules_witness :
    parseMinutesNum "Approaching SOON" = 0 ∧
    parseMinutesNum "a<b" = 1 / 2 ∧
    parseMinutesNum "12.5 min" =
      (match parseFloat "12.5 min" with | some q => q | none => 999) := by
  exact ⟨parseMinutesNum_rank_rules.1 "Approaching SOON" (by decide),
         parseMinutesNum_rank_rules.2.1 "a<b" (by decide) (by decide),
         parseMinutesNum_rank_rules.2.2.1 "12.5 min" (by decide) (by decide)⟩

/-- C7: distance-label normalization applies the stops-away pattern, then the
`approaching` substring, then the miles pattern with
`stops = max(1, round(miles * 8))`, then pass-through, first match winning:
the spec's four sample values, two precedence crossovers (a text matching
both the stops-away pattern and `approaching` takes the stops-away rule; a
text containing `approaching` and a miles phrase takes `Approaching`), and
the pass-through rule when no pattern matches. -/
theorem parseStopsAway_rules :
    parseStopsAway "3 stops away" = "3 stops away" ∧
    parseStopsAway "2.1 miles away" = "~17 stops away" ∧
    parseStopsAway "0.05 miles away" = "~1 stops away" ∧
    parseStopsAway "Approaching now" = "Approaching" ∧
    parseStopsAway "approaching 3 stops away" = "3 stops away" ∧
    parseStopsAway "approaching 2 miles away" = "Approaching" ∧
    (∀ s : String, stopsAwaySearch s.data = none →
      includes (toLowerStr s) "approaching" = false →
      milesAwaySearch s.data = none → parseStopsAway s = s) := by
  refine ⟨by decide, ?_, ?_, by decide, by decide, by decide, ?_⟩
  · rw [parseStopsAway_milesBranch "2.1 miles away" ['2', '.', '1'] (21 / 10)
      (by decide) (by decide) (by decide) parseFloatQ_eval_21_10,
      show max 1 (jsRound ((21 : ℚ) / 10 * 8)) = 17 from by norm_num [jsRound]]
    decide
  · rw [parseStopsAway_milesBranch "0.05 miles away" ['0', '.', '0', '5'] (1 / 20)
      (by decide) (by decide) (by decide) parseFloatQ_eval_1_20,
      show max 1 (jsRound ((1 : ℚ) / 20 * 8)) = 1 from by norm_num [jsRound]]
    decide
  · intro s h1 h2 h3
    simp [parseStopsAway, h1, h2, h3]

/-- C7 witness: the pass-through rule applied at a concrete input matching
no pattern. -/
theorem parseStopsAway_rules_witness :
    parseStopsAway "right here" = "right here" :=
  parseStopsAway_rules.2.2.2.2.2.2 "right here" (by decide) (by decide) (by decide)

/-- C5: extraction of the sample document (one direction-at-stop block with
header `M101 Southbound`, one ordered list whose first item has emphasized
text `3 min`, small text `Vehicle 1234` and full text
`3 minutes, 2 stops away, Vehicle 1234`) yields exactly one route record
with routeId `M101`, direction `Southbound` and one arrival with display
text `3 min`, rank 3, distance label `2 stops away` and vehicle id `1234`. -/
theorem endToEnd_sample_extraction :
    parseBusData sampleDoc =
      { stopName := "",
        routes := [{ route := "M101", direction := "Southbound",
                     arrivals := [{ minutes := "3 min", minutesNum := 3,
                                    stopsAway := "2 stops away",
                                    vehicleId := "1234" }] }] } := by
  have hli : parseOl sampleOl =
      some { minutes := "3 min", minutesNum := parseMinutesNum "3 min",
             stopsAway := "2 stops away", vehicleId := "1234" } := by
    have e1 : (descByTag "li" sampleOl).head? = some sampleLi := rfl
    have e2 : (descByTag "strong" sampleLi).head? = some (el "strong" [txt "3 min"]) := rfl
    have e3 : (descByTag "small" sampleLi).head? =
        some (el "small" [txt "Vehicle 1234"]) := rfl
    have e4 : distanceSearch (textContent sampleLi).data = some "2 stops away,".data := by
      decide
    have e5 : jsTrim (textContent (el "strong" [txt "3 min"])) = "3 min" := by decide
    have e6 : (⟨replaceFirst
        (jsTrim (textContent (el "small" [txt "Vehicle 1234"]))).data
        "Vehicle ".data⟩ : String) = "1234" := by decide
    have e7 : parseStopsAway (jsTrim ⟨"2 stops away,".data⟩) = "2 stops away" := by decide
    simp only [parseOl, e1, e2, e3, e4, e5, e6, e7]
  have hdir : parseDirection sampleDir =
      some { route := "M101", direction := "Southbound",
             arrivals := [{ minutes := "3 min", minutesNum := parseMinutesNum "3 min",
                            stopsAway := "2 stops away", vehicleId := "1234" }] } := by
    have hq : pStrongQuery sampleDir = some (el "strong" [txt "M101 Southbound"]) := rfl
    have hh : headerMatch
        (jsTrim (textContent (el "strong" [txt "M101 Southbound"]))).data =
        some ("M101".data, "Southbound".data) := by decide
    have hol : descByTag "ol" sampleDir = [sampleOl] := rfl
    simp only [parseDirection, hq, hh, hol, List.filterMap_cons, List.filterMap_nil, hli]
  have hdoc : parseBusData sampleDoc =
      { stopName := parseStopName sampleDoc,
        routes := (nodeClassMatches "directionAtStop" sampleDoc).filterMap parseDirection } :=
    rfl
  rw [hdoc, show parseStopName sampleDoc = "" from by decide,
      show nodeClassMatches "directionAtStop" sampleDoc = [sampleDir] from rfl]
  simp only [List.filterMap_cons, List.filterMap_nil, hdir]
  rw [parseMinutesNum_eval_3]

/-- C3 counterexample: a document with exactly one direction-at-stop block
whose trimmed header text is exactly the route token `M101` (no
whitespace-separated second token) yields NO route record at all - the block
is skipped, not included with an empty direction label. -/
theorem singleTokenHeader_skipped_cex :
    nodeClassMatches "directionAtStop" singleTokenDoc = [singleTokenDir] ∧
    (pStrongQuery singleTokenDir).map (fun h => jsTrim (textContent h)) = some "M101" ∧
    (parseBusData singleTokenDoc).routes = [] := by
  refine ⟨rfl, by decide, ?_⟩
  have hdoc : (parseBusData singleTokenDoc).routes =
      (nodeClassMatches "directionAtStop" singleTokenDoc).filterMap parseDirection := rfl
  have hdir : parseDirection singleTokenDir = none := by
    have hq : pStrongQuery singleTokenDir = some (el "strong" [txt "M101"]) := rfl
    have hh : headerMatch (jsTrim (textContent (el "strong" [txt "M101"]))).data = none := by
      decide
    simp only [parseDirection, hq, hh]
  rw [hdoc, show nodeClassMatches "directionAtStop" singleTokenDoc = [singleTokenDir]
    from rfl]
  simp only [List.filterMap_cons, List.filterMap_nil, hdir]

/-- C3 amended: the header pattern `/^(\S+)\s+(.+)/` requires a route token
followed by whitespace and a nonempty remainder, so a block whose trimmed
header text lacks a whitespace-separated second token after the route id is
skipped entirely (no route record is emitted for it), even when the route
token itself is present. -/
theorem singleTokenHeader_blockSkipped :
    (∀ l : List Char, l.all (fun c => !isJsWhitespace c) → headerMatch l = none) ∧
    (∀ dir h : Node, pStrongQuery dir = some h →
      headerMatch (jsTrim (textContent h)).data = none → parseDirection dir = none) := by
  constructor
  · intro l hl
    rw [headerMatch, takeWhile_all_eq l hl]
    cases l with
    | nil => rfl
    | cons c t =>
      rw [if_neg (by simp [List.isEmpty])]
      rw [List.drop_length]
      rfl
  · intro dir h hq hm
    simp only [parseDirection, hq, hm]

/-- C3 amended witness: the header rule and the block rule applied at the
concrete single-token block. -/
theorem singleTokenHeader_blockSkipped_witness :
    headerMatch "M101".data = none ∧ parseDirection singleTokenDir = none := by
  refine ⟨singleTokenHeader_blockSkipped.1 "M101".data (by decide), ?_⟩
  exact singleTokenHeader_blockSkipped.2 singleTokenDir (el "strong" [txt "M101"])
    rfl (by decide)

/-- C8: every ordered list contributes at most one arrival (its first list
item only); an ordered list with no list item contributes no arrival; and a
block with a valid header and zero ordered lists still yields a route record
with an empty arrivals array, which is present in the extraction output, not
omitted. -/
theorem routeBlock_arrival_shape :
    (∀ ol : Node, descByTag "li" ol = [] → parseOl ol = none) ∧
    (∀ (dir : Node) (r : BusRoute), parseDirection dir = some r →
      r.arrivals.length ≤ (descByTag "ol" dir).length) ∧
    (∀ (dir : Node) (r : BusRoute), parseDirection dir = some r →
      descByTag "ol" dir = [] → r.arrivals = []) ∧
    (∀ (doc dir : Node) (r : BusRoute), dir ∈ nodeClassMatches "directionAtStop" doc →
      parseDirection dir = some r → r ∈ (parseBusData doc).routes) := by
  refine ⟨?_, ?_, ?_, ?_⟩
  · intro ol h
    simp [parseOl, h]
  · intro dir r h
    rcases hq : pStrongQuery dir with _ | hEl
    · simp [parseDirection, hq] at h
    · rcases hm : headerMatch (jsTrim (textContent hEl)).data with _ | td
      · simp [parseDirection, hq, hm] at h
      · simp [parseDirection, hq, hm] at h
        rw [← h]
        exact List.length_filterMap_le parseOl (descByTag "ol" dir)
  · intro dir r h hol
    rcases hq : pStrongQuery dir with _ | hEl
    · simp [parseDirection, hq] at h
    · rcases hm : headerMatch (jsTrim (textContent hEl)).data with _ | td
      · simp [parseDirection, hq, hm] at h
      · simp [parseDirection, hq, hm, hol] at h
        rw [← h]
  · intro doc dir r hmem hdir
    have hroutes : (parseBusData doc).routes =
        (nodeClassMatches "directionAtStop" doc).filterMap parseDirection := rfl
    rw [hroutes]
    exact List.mem_filterMap.mpr ⟨dir, hmem, hdir⟩

/-- C8 witness: the rules applied at a no-item ordered list and at a
concrete block with a valid header and zero ordered lists, inside a
document. -/
theorem routeBlock_arrival_shape_witness :
    parseOl (el "ol" []) = none ∧
    ({ route := "M101", direction := "South", arrivals := [] } : BusRoute) ∈
      (parseBusData noOlDoc).routes := by
  constructor
  · exact routeBlock_arrival_shape.1 (el "ol" []) rfl
  · have hdir : parseDirection noOlDir =
        some { route := "M101", direction := "South", arrivals := [] } := by
      have hq : pStrongQuery noOlDir = some (el "strong" [txt "M101 South"]) := rfl
      have hh : headerMatch (jsTrim (textContent (el "strong" [txt "M101 South"]))).data =
          some ("M101".data, "South".data) := by decide
      have hol : descByTag "ol" noOlDir = [] := rfl
      simp only [parseDirection, hq, hh, hol, List.filterMap_nil]
    exact routeBlock_arrival_shape.2.2.2 noOlDoc noOlDir _
      (by rw [show nodeClassMatches "directionAtStop" noOlDoc = [noOlDir] from rfl]
          exact List.mem_singleton.mpr rfl) hdir

/-- C9: extraction is a total function into `StopSnapshot` (the embedding is
a plain function and the source never throws: `DOMParser` never raises on
`text/html` and all lookups are null-guarded); missing sub-elements and
unparsable fields degrade to defaults - empty strings, pass-through empty
distance text, and the sentinel rank 999 when no number parses. -/
theorem extract_total_defaults :
    (∀ doc : Node, ∃ snap : StopSnapshot, parseBusData doc = snap) ∧
    (∀ ol li : Node, (descByTag "li" ol).head? = some li →
      descByTag "strong" li = [] → descByTag "small" li = [] →
      distanceSearch (textContent li).data = none →
      parseOl ol = some { minutes := "", minutesNum := 999, stopsAway := "",
                          vehicleId := "" }) ∧
    (∀ s : String, parseFloat s = none →
      includes (toLowerStr s) "approaching" = false → includes s "<" = false →
      parseMinutesNum s = 999) := by
  refine ⟨fun doc => ⟨parseBusData doc, rfl⟩, ?_, ?_⟩
  · intro ol li h1 h2 h3 h4
    simp only [parseOl, h1, h2, h3, h4, List.head?_nil]
    decide
  · intro s h1 h2 h3
    simp [parseMinutesNum, h1, h2, h3]

/-- C9 witness: the default-degradation rules applied at an ordered list
whose first item is empty, and at the unparsable text `garbage`. -/
theorem extract_total_defaults_witness :
    parseOl bareLiOl = some { minutes := "", minutesNum := 999, stopsAway := "",
                              vehicleId := "" } ∧
    parseMinutesNum "garbage" = 999 := by
  constructor
  · exact extract_total_defaults.2.1 bareLiOl (el "li" []) rfl rfl rfl rfl
  · exact extract_total_defaults.2.2 "garbage" (by decide) (by decide) (by decide)

/-- C10: the raw-distance regex matches its `minute`/`minutes` token
case-sensitively (no `i` flag): a list item whose full text has no lowercase
`minute` occurrence gets an empty raw distance and an empty distance label —
unlike the stops-away normalization pattern, which matches
case-insensitively. -/
theorem minuteToken_caseSensitive :
    (∀ s : List Char, hasSubL s "minute".data = false → distanceSearch s = none) ∧
    (∀ (ol li : Node) (a : BusArrival), (descByTag "li" ol).head? = some li →
      hasSubL (textContent li).data "minute".data = false →
      parseOl ol = some a → a.stopsAway = "") ∧
    parseStopsAway "2 Stops Away" = "2 stops away" := by
  refine ⟨distanceSearch_none_of_no_minute, ?_, by decide⟩
  intro ol li a h1 h2 hpa
  have hds := distanceSearch_none_of_no_minute _ h2
  simp only [parseOl, h1, hds, Option.some.injEq] at hpa
  rw [← hpa]
  show parseStopsAway "" = ""
  decide

/-- C10 witness: the case-sensitivity rule applied at the concrete
capitalized text `3 Minutes, 2 stops away`. -/
theorem minuteToken_caseSensitive_witness :
    distanceSearch "3 Minutes, 2 stops away".data = none :=
  minuteToken_caseSensitive.1 "3 Minutes, 2 stops away".data (by decide)

/-- One event keeps the outstanding-fetch count at or below one. -/
theorem step_outstanding_le (gap : Int) (s : ControllerState) (e : Event)
    (h : s.outstanding ≤ 1) : (step gap s e).outstanding ≤ 1 := by
  cases e with
  | request now =>
    by_cases h0 : s.outstanding ≠ 0
    · simp [step, requestRefresh, h0, h]
    · by_cases h1 : now - s.lastRequestAt < gap
      · simp [step, requestRefresh, h0, h1, h]
      · simp [step, requestRefresh, h0, h1]
        omega
  | settle o =>
    cases o with
    | success doc =>
      simp only [step, resolveFetch]
      omega
    | failure err =>
      simp only [step, resolveFetch]
      omega

/-- Any event trace keeps the outstanding-fetch count at or below one. -/
theorem run_outstanding_le (gap : Int) :
    ∀ (events : List Event) (s : ControllerState), s.outstanding ≤ 1 →
      (run gap s events).outstanding ≤ 1 := by
  intro events
  induction events with
  | nil => intro s h; exact h
  | cons e es ih => intro s h; exact ih _ (step_outstanding_le gap s e h)

/-- C1: single-flight de-duplication - a refresh requested while a fetch is
outstanding returns the existing in-flight operation unchanged (the caller
shares its result) and starts nothing; along every event trace from the
initial state at most one fetch is outstanding; and two refresh requests
issued before the first's fetch settles perform exactly one underlying
fetch. -/
theorem singleFlight_dedup :
    (∀ (gap now : Int) (s : ControllerState), s.outstanding ≠ 0 →
      requestRefresh gap now s = (s, .joinedInFlight)) ∧
    (∀ (gap : Int) (events : List Event),
      (run gap initState events).outstanding ≤ 1) ∧
    (∀ (gap t1 t2 : Int) (s : ControllerState), s.outstanding = 0 →
      gap ≤ t1 - s.lastRequestAt →
      (requestRefresh gap t1 s).2 = .startedFetch ∧
      (requestRefresh gap t2 (requestRefresh gap t1 s).1).2 = .joinedInFlight ∧
      fetchesStarted gap s [.request t1, .request t2] = 1) := by
  refine ⟨?_, ?_, ?_⟩
  · intro gap now s h
    simp [requestRefresh, h]
  · intro gap events
    exact run_outstanding_le gap events initState (by simp [initState])
  · intro gap t1 t2 s h0 h1
    have hreq : requestRefresh gap t1 s =
        ({ s with lastRequestAt := t1, nextAllowedRefreshAt := t1 + gap,
                  isRefreshing := true, outstanding := s.outstanding + 1 },
         .startedFetch) := by
      rw [requestRefresh, if_neg (by omega), if_neg (by omega)]
    have h2 : requestRefresh gap t2
        ({ s with lastRequestAt := t1, nextAllowedRefreshAt := t1 + gap,
                  isRefreshing := true, outstanding := s.outstanding + 1 } :
          ControllerState) =
        ({ s with lastRequestAt := t1, nextAllowedRefreshAt := t1 + gap,
                  isRefreshing := true, outstanding := s.outstanding + 1 },
         .joinedInFlight) := by
      simp [requestRefresh]
    refine ⟨by rw [hreq], by rw [hreq]; exact congrArg Prod.snd h2, ?_⟩
    simp only [fetchesStarted, step, hreq, h2]
    simp

/-- C1 witness: the two-request trace at concrete times from the initial
state. -/
theorem singleFlight_dedup_witness :
    (requestRefresh 5000 10000 initState).2 = .startedFetch ∧
    (requestRefresh 5000 10001 (requestRefresh 5000 10000 initState).1).2 =
      .joinedInFlight ∧
    fetchesStarted 5000 initState [.request 10000, .request 10001] = 1 :=
  singleFlight_dedup.2.2 5000 10000 10001 initState (by decide) (by decide)

/-- C2: a refresh requested while no fetch is outstanding and before the
minimum gap has elapsed since the last issued request is dropped silently:
no fetch starts and the whole controller state - snapshot (routes,
stopName), lastRequestAt, nextAllowedRefreshAt, error - is exactly
unchanged. -/
theorem coolingRefresh_noop :
    ∀ (gap now : Int) (s : ControllerState), s.outstanding = 0 →
      now - s.lastRequestAt < gap →
      requestRefresh gap now s = (s, .droppedCooldown) := by
  intro gap now s h0 h1
  rw [requestRefresh, if_neg (by omega), if_pos h1]

/-- C2 witness: a refresh at time 12000 after a request issued at 10000 with
a 5000 ms gap, the first fetch having already settled, is a no-op. -/
theorem coolingRefresh_noop_witness :
    requestRefresh 5000 12000
        (resolveFetch (requestRefresh 5000 10000 initState).1
          (.failure (.networkFailure "Failed to fetch"))) =
      (resolveFetch (requestRefresh 5000 10000 initState).1
        (.failure (.networkFailure "Failed to fetch")), .droppedCooldown) :=
  coolingRefresh_noop 5000 12000 _ (by decide) (by decide)

/-- C4: when the fetch settles with a transport error, the controller keeps
the previous snapshot untouched (routes and stopName unchanged), surfaces
the human-readable message, resets the refreshing/loading flags, releases
the in-flight handle, and accepts a future refresh once the gap has
elapsed. -/
theorem transportError_retainsSnapshot :
    ∀ (s : ControllerState) (err : TransportError),
      (resolveFetch s (.failure err)).routes = s.routes ∧
      (resolveFetch s (.failure err)).stopName = s.stopName ∧
      (resolveFetch s (.failure err)).error = some (errorMessage err) ∧
      (resolveFetch s (.failure err)).isRefreshing = false ∧
      (resolveFetch s (.failure err)).loading = false ∧
      (resolveFetch s (.failure err)).outstanding = s.outstanding - 1 ∧
      (∀ gap now : Int, s.outstanding ≤ 1 → gap ≤ now - s.lastRequestAt →
        (requestRefresh gap now (resolveFetch s (.failure err))).2 =
          .startedFetch) := by
  intro s err
  refine ⟨rfl, rfl, rfl, rfl, rfl, rfl, ?_⟩
  intro gap now h1 h2
  have h0 : (resolveFetch s (.failure err)).outstanding = 0 := by
    simp only [resolveFetch]
    omega
  have hl : (resolveFetch s (.failure err)).lastRequestAt = s.lastRequestAt := rfl
  rw [requestRefresh, if_neg (by omega), if_neg (by rw [hl]; omega)]

/-- C4 witness: an HTTP 503 settlement at the concrete started state, then a
refresh after the gap. -/
theorem transportError_retainsSnapshot_witness :
    (resolveFetch (requestRefresh 5000 10000 initState).1
        (.failure (.httpError 503))).error = some (errorMessage (.httpError 503)) ∧
    (requestRefresh 5000 16000
        (resolveFetch (requestRefresh 5000 10000 initState).1
          (.failure (.httpError 503)))).2 = .startedFetch := by
  refine ⟨(transportError_retainsSnapshot _ (.httpError 503)).2.2.1, ?_⟩
  exact (transportError_retainsSnapshot (requestRefresh 5000 10000 initState).1
    (.httpError 503)).2.2.2.2.2.2 5000 16000 (by decide) (by decide)

end BusWatch
